import Mathlib

/-!
Verification of the socket-link messaging core (src/socket-link.ts).

The embedding models the newline-framed JSON message reader
(`messagesReader`), the error codec (`asMessageError`, `RemoteError`),
the id generator (`counter`), the client call settlement logic of
`requestService`, and the observable start-up effects of `startService`.
JSON values are modelled by an inductive `JsVal`; the external JSON
parser (`JSON.parse`) is an abstract parameter `p : List Char → Except
ParseErr JsVal`, since it is a host-runtime primitive, not part of the
repository.  Stream text is modelled as `List Char` so that chunk
splitting at arbitrary positions can be reasoned about.
-/

namespace SocketLink

/-- A JavaScript value as produced by JSON parsing or constructed by the
library: `undef` models `undefined` (distinct from JSON `null`). -/
inductive JsVal where
  | undef : JsVal
  | null : JsVal
  | bool (b : Bool) : JsVal
  | num (n : Int) : JsVal
  | str (s : String) : JsVal
  | arr (elems : List JsVal) : JsVal
  | obj (fields : List (String × JsVal)) : JsVal

/-- The failure thrown by `JSON.parse`: carries `message` and `name`
(the constructor name, e.g. SyntaxError). -/
structure ParseErr where
  message : String
  name : String
deriving DecidableEq

/-- First-match association lookup; a missing key reads as `undefined`,
as JS property access on an object does. -/
def lookupField : List (String × JsVal) → String → JsVal
  | [], _ => JsVal.undef
  | (k, v) :: rest, key => if k = key then v else lookupField rest key

/-- Property read `v[key]` (only used on objects in the claims). -/
def fieldOf : JsVal → String → JsVal
  | JsVal.obj fs, key => lookupField fs key
  | _, _ => JsVal.undef

/-- Property write into an association list: overwrites in place if the
key exists, otherwise appends (JS insertion order). -/
def setAssoc : List (String × JsVal) → String → JsVal → List (String × JsVal)
  | [], key, v => [(key, v)]
  | (k, w) :: rest, key, v =>
      if k = key then (k, v) :: rest else (k, w) :: setAssoc rest key v

/-- Property assignment `m[key] = v`; on a non-object it is a no-op,
as sloppy-mode JS property assignment on a primitive is. -/
def setField (m : JsVal) (key : String) (v : JsVal) : JsVal :=
  match m with
  | JsVal.obj fs => JsVal.obj (setAssoc fs key v)
  | other => other

/-- JS truthiness of a value. -/
def jsTruthy : JsVal → Bool
  | JsVal.undef => false
  | JsVal.null => false
  | JsVal.bool b => b
  | JsVal.num n => n != 0
  | JsVal.str s => !s.isEmpty
  | JsVal.arr _ => true
  | JsVal.obj _ => true

/-- One chunk / raw frame of stream text. -/
abbrev Chunk := List Char

/-- `String.prototype.split('\n')` on a character list: always returns a
non-empty list; `"".split` gives `[""]`. -/
def splitNl : Chunk → List Chunk
  | [] => [[]]
  | c :: cs =>
      match splitNl cs with
      | [] => [[]]
      | piece :: rest =>
          if c = '\n' then [] :: piece :: rest else (c :: piece) :: rest

/-- The complete newline-terminated frames of a text, paired with the
trailing partial frame after the last delimiter. -/
def framesAndRest : Chunk → List Chunk × Chunk
  | [] => ([], [])
  | c :: cs =>
      let fr := framesAndRest cs
      if c = '\n' then ([] :: fr.1, fr.2)
      else
        match fr.1 with
        | [] => ([], c :: fr.2)
        | f :: fs => ((c :: f) :: fs, fr.2)

/-- The body of `messagesReader` for one raw frame: an empty frame is
the heartbeat `{body: null, emptyResponse: true}`; otherwise the frame
is JSON-parsed, and a parse failure becomes the Error-variant object
with `error`/`type` from the failure and `invalidResponse` holding the
raw text verbatim (source lines 63-68). -/
def mkMessage (p : Chunk → Except ParseErr JsVal) (rawBody : Chunk) : JsVal :=
  if rawBody.isEmpty then
    JsVal.obj [("body", JsVal.null), ("emptyResponse", JsVal.bool true)]
  else
    match p rawBody with
    | Except.ok v => v
    | Except.error e =>
        JsVal.obj [("error", JsVal.str e.message), ("type", JsVal.str e.name),
                   ("invalidResponse", JsVal.str (String.mk rawBody))]

/-- The id-tagging step of `messagesReader` (source line 69): when a
reader context with `reqestIdGenerator` is bound and the message is
truthy, the `id` field is overwritten with the next generated id.  The
abstract generator `g : Nat → String` gives the id of the n-th
invocation; `n` counts invocations so far. -/
def tagMessage (ctx : Option (Nat → String)) (n : Nat) (m : JsVal) : JsVal × Nat :=
  match ctx with
  | none => (m, n)
  | some g => if jsTruthy m then (setField m "id" (JsVal.str (g n)), n + 1) else (m, n)

/-- The inner `for` loop of `messagesReader` over the pieces of one
split chunk: each piece is pushed onto the buffer; every piece except
the last flushes the buffer into one raw frame and yields its message. -/
def consumePieces (p : Chunk → Except ParseErr JsVal) (ctx : Option (Nat → String)) :
    List Chunk → List Chunk → Nat → List Chunk × Nat × List JsVal
  | buffer, [], n => (buffer, n, [])
  | buffer, [piece], n => (buffer ++ [piece], n, [])
  | buffer, piece :: rest, n =>
      let raw := (buffer ++ [piece]).flatten
      let tagged := tagMessage ctx n (mkMessage p raw)
      let r := consumePieces p ctx [] rest tagged.2
      (r.1, r.2.1, tagged.1 :: r.2.2)

/-- One iteration of the outer `while` loop of `messagesReader`: a data
chunk is split on newlines and consumed piecewise. -/
def messagesStep (p : Chunk → Except ParseErr JsVal) (ctx : Option (Nat → String))
    (buffer : List Chunk) (n : Nat) (data : Chunk) : List Chunk × Nat × List JsVal :=
  consumePieces p ctx buffer (splitNl data) n

/-- The reader loop run over a finite list of data chunks, threading the
buffer and the id-generator invocation count; the stream then ends and
the loop breaks, discarding any buffered partial frame. -/
def messagesRunFrom (p : Chunk → Except ParseErr JsVal) (ctx : Option (Nat → String)) :
    List Chunk → Nat → List Chunk → List Chunk × Nat × List JsVal
  | buffer, n, [] => (buffer, n, [])
  | buffer, n, d :: ds =>
      let s := messagesStep p ctx buffer n d
      let r := messagesRunFrom p ctx s.1 s.2.1 ds
      (r.1, r.2.1, s.2.2 ++ r.2.2)

/-- The sequence of messages `messagesReader` yields for a stream that
delivers the given chunks and then ends. -/
def messagesReader (p : Chunk → Except ParseErr JsVal) (ctx : Option (Nat → String))
    (chunks : List Chunk) : List JsVal :=
  (messagesRunFrom p ctx [] 0 chunks).2.2

mutual

/-- The JS `String(v)` coercion as used by the `Error` constructor and
string concatenation: primitives render canonically, arrays render as
their comma-joined elements, plain objects as "[object Object]". -/
def jsStringOf : JsVal → String
  | JsVal.undef => "undefined"
  | JsVal.null => "null"
  | JsVal.bool b => cond b "true" "false"
  | JsVal.num n => toString n
  | JsVal.str s => s
  | JsVal.arr es => jsListStr es
  | JsVal.obj _ => "[object Object]"
termination_by v => (sizeOf v, 1)

/-- Array rendering: elements joined by commas. -/
def jsListStr : List JsVal → String
  | [] => ""
  | [e] => jsElemStr e
  | e :: es => jsElemStr e ++ "," ++ jsListStr es
termination_by es => (sizeOf es, 0)

/-- An array element renders as the empty string when null/undefined. -/
def jsElemStr : JsVal → String
  | JsVal.undef => ""
  | JsVal.null => ""
  | e => jsStringOf e
termination_by e => (sizeOf e, 2)

end

/-- The wire Error-variant shape built by `asMessageError`: optional
fields model properties that may be absent from the response object. -/
structure MessageErrorM where
  error : String
  type : String
  invalidResponse : Option String := none
  stack : Option String := none
  details : Option JsVal := none

/-- A thrown JS value, classified by the runtime shape `asMessageError`
inspects: an `Error` instance (name/message/stack), an `ErrorResponse`
instance (an `Error` subclass additionally carrying `details`), a plain
string, any other truthy value exposing `toString` (with its rendered
text), or anything else (falsy values, objects without `toString`). -/
inductive Thrown where
  | errObj (name message stack : String) : Thrown
  | errResponse (name message stack : String) (details : JsVal) : Thrown
  | str (s : String) : Thrown
  | objWithTs (text : String) (v : JsVal) : Thrown
  | other (v : JsVal) : Thrown

/-- The error codec's encode direction (source lines 155-166). -/
def asMessageError (e : Thrown) (addStack : Bool) : MessageErrorM :=
  match e with
  | Thrown.errResponse name msg _ det =>
      { error := msg, type := name, details := some det }
  | Thrown.errObj name msg stk =>
      if addStack then { error := msg, type := name, stack := some stk }
      else { error := msg, type := name }
  | Thrown.str s => { error := s, type := "string" }
  | Thrown.objWithTs text v => { error := text, type := "object", details := some v }
  | Thrown.other v => { error := "unknown error", type := "unknown", details := some v }

/-- The mutable state of one `counter(radix)` generator instance. -/
structure CounterIdGen where
  radix : Nat
  count : Nat

/-- A fresh generator: `count` starts at 0 (source lines 169-175). -/
def counter (radix : Nat) : CounterIdGen := CounterIdGen.mk radix 0

/-- One invocation of a generator: returns the optional prefix-plus-join
followed by the pre-increment count rendered in the radix, together with
the post-incremented state. -/
def counterCall (g : CounterIdGen) (pfx : String) (join : String) : String × CounterIdGen :=
  ((if pfx.isEmpty then "" else pfx ++ join) ++ String.mk (Nat.toDigits g.radix g.count),
   CounterIdGen.mk g.radix (g.count + 1))

/-- Successive invocations of one generator instance with the given
prefixes (and the default join "."), threading the instance state. -/
def counterRun (g : CounterIdGen) : List String → List String
  | [] => []
  | pfx :: rest =>
      let r := counterCall g pfx "."
      r.1 :: counterRun r.2 rest

/-- Sequential `Object.assign(base, rest)`: each field of `rest` is
written into `base` in order. -/
def assignFields (base : List (String × JsVal)) : List (String × JsVal) → List (String × JsVal)
  | [] => base
  | (k, v) :: rest => assignFields (setAssoc base k v) rest

/-- The own fields of a `RemoteError` built from an Error-variant
message object (source lines 36-43): `super(error)` sets `message`;
`stack` is set to `this.name + ': ' + stack` when `stack` is truthy and
to the empty string otherwise, where `this.name` is the inherited class
name "Error"; every remaining field is then copied on by
`Object.assign`. -/
def remoteError (fs : List (String × JsVal)) : List (String × JsVal) :=
  let err := lookupField fs "error"
  let stk := lookupField fs "stack"
  let rest := fs.filter (fun kv => kv.1 != "error" && kv.1 != "stack")
  assignFields
    [("name", JsVal.str "Error"),
     ("message", JsVal.str (match err with | JsVal.undef => "" | v => jsStringOf v)),
     ("stack", JsVal.str (if jsTruthy stk then "Error" ++ ": " ++ jsStringOf stk else ""))]
    rest

/-- The outcome of the client `call` promise: resolution with a value,
or rejection with a `RemoteError` carrying the given own fields. -/
inductive CallOutcome where
  | resolved (v : JsVal) : CallOutcome
  | rejected (errFields : List (String × JsVal)) : CallOutcome

/-- The settlement logic of the `call` closure in `requestService`
(source lines 226-230) applied to the reader's next step: an exhausted
reader (`done`) resolves to null; a value with truthy `error` field
rejects with a `RemoteError` built from it; anything else resolves with
the value's `body` field.  (The claims exercise this only on object
messages and on stream end; JS member access on a null message would
instead throw a TypeError.) -/
def callSettle (next : Option JsVal) : CallOutcome :=
  match next with
  | none => CallOutcome.resolved JsVal.null
  | some v =>
      if jsTruthy (fieldOf v "error") then
        CallOutcome.rejected (remoteError (match v with | JsVal.obj fs => fs | _ => []))
      else CallOutcome.resolved (fieldOf v "body")

/-- The options of `startService` relevant to the claims.  `onAddr`
models the source field `on` (a Lean keyword). -/
structure ServiceOpts where
  onAddr : String
  serviceId : Option String := none
  log : Bool := false
  traceErrors : Bool := false

/-- An observable side effect of the synchronous body of `startService`. -/
inductive StartEffect where
  | createServer : StartEffect
  | assignDerivedServiceId (hostname : String) (startTimeHex : String) : StartEffect
  | registerLogListeners : StartEffect
  | registerProcessSignalHandler (sig : String) : StartEffect
  | registerConnectHandler : StartEffect
  | listen (addr : String) : StartEffect
deriving DecidableEq

/-- JS falsiness of an optional string option (absent or empty). -/
def jsFalsyOptStr : Option String → Bool
  | none => true
  | some s => s.isEmpty

/-- The ordered effects of the synchronous body of `startService`
(source lines 103-152): create the server, derive `service.id` when no
truthy `serviceId` option is given, register log listeners when logging
is on, register a process-level SIGINT handler bound to `service.stop`
(line 139), register the connect handler when a service handler is
supplied, and start listening. -/
def startServiceTrace (opts : ServiceOpts) (hostname : String) (now : Nat)
    (hasHandler : Bool) : List StartEffect :=
  [StartEffect.createServer]
  ++ (if jsFalsyOptStr opts.serviceId then
        [StartEffect.assignDerivedServiceId hostname (String.mk (Nat.toDigits 16 now))]
      else [])
  ++ (if opts.log then [StartEffect.registerLogListeners] else [])
  ++ [StartEffect.registerProcessSignalHandler "SIGINT"]
  ++ (if hasHandler then [StartEffect.registerConnectHandler] else [])
  ++ [StartEffect.listen opts.onAddr]

/-- The value of `service.id` after `startService` returns: line 130
assigns the hostname-and-start-time id only when `opts.serviceId` is
falsy, and no other line ever assigns `service.id`, so a supplied
(truthy) `serviceId` leaves the field undefined. -/
def serviceIdAfterStart (opts : ServiceOpts) (hostname : String) (now : Nat) : Option String :=
  if jsFalsyOptStr opts.serviceId then
    some (hostname ++ "." ++ String.mk (Nat.toDigits 16 now))
  else none

/-- A concrete stand-in for `JSON.parse` used by the closed witnesses:
it accepts exactly the text "null" (whose JSON value is `null`) and
fails on everything else with a SyntaxError. -/
def jsonParseNull : Chunk → Except ParseErr JsVal := fun raw =>
  if raw = "null".toList then Except.ok JsVal.null
  else Except.error (ParseErr.mk "Unexpected token" "SyntaxError")

/-- A concrete id generator trace for the closed witnesses, matching a
`counter(16)` bound with connection-id prefix "c1". -/
def genFix : Nat → String := fun n => "c1." ++ String.mk (Nat.toDigits 16 n)

/-- Prepending carried text onto the first of a list of frames (the
seam when two stream segments are concatenated). -/
def seam (q : Chunk) : List Chunk → List Chunk
  | [] => []
  | g :: gs => (q ++ g) :: gs

/-- The messages the reader yields for a list of complete raw frames,
threading the id-generator invocation count: the closed form that the
buffered chunk-by-chunk loop is proved to compute. -/
def emitFrames (p : Chunk → Except ParseErr JsVal) (ctx : Option (Nat → String)) :
    List Chunk → Nat → Nat × List JsVal
  | [], n => (n, [])
  | f :: fs, n =>
      let t := tagMessage ctx n (mkMessage p f)
      let r := emitFrames p ctx fs t.2
      (r.1, t.1 :: r.2)

/-- An Error-variant wire message with every optional field present, as
an ordered JS object field list. -/
def errVariantFields (idv ty inv det : JsVal) (err stk : String) : List (String × JsVal) :=
  [("id", idv), ("error", JsVal.str err), ("type", ty), ("invalidResponse", inv),
   ("stack", JsVal.str stk), ("details", det)]

theorem seam_nil (gs : List Chunk) : seam [] gs = gs := by
  cases gs <;> simp [seam]

theorem splitNl_eq_framesAndRest (s : Chunk) :
    splitNl s = (framesAndRest s).1 ++ [(framesAndRest s).2] := by
  induction s with
  | nil => simp [splitNl, framesAndRest]
  | cons c cs ih =>
      by_cases hc : c = '\n'
      · subst hc
        rcases hf : (framesAndRest cs).1 with _ | ⟨f, fs⟩ <;>
          simp [splitNl, framesAndRest, ih, hf]
      · rcases hf : (framesAndRest cs).1 with _ | ⟨f, fs⟩
        · simp [splitNl, framesAndRest, ih, hf, hc]
        · simp [splitNl, framesAndRest, ih, hf, hc]

theorem framesAndRest_no_newline {s : Chunk} (h : '\n' ∉ s) :
    framesAndRest s = ([], s) := by
  induction s with
  | nil => simp [framesAndRest]
  | cons c cs ih =>
      have hc : c ≠ '\n' := fun hceq => h (hceq ▸ List.mem_cons_self c cs)
      have hcs : '\n' ∉ cs := fun hm => h (List.mem_cons_of_mem c hm)
      simp [framesAndRest, hc, ih hcs]

theorem newline_not_mem_rest (s : Chunk) : '\n' ∉ (framesAndRest s).2 := by
  induction s with
  | nil => simp [framesAndRest]
  | cons c cs ih =>
      by_cases hc : c = '\n'
      · subst hc; simpa [framesAndRest] using ih
      · rcases hf : (framesAndRest cs).1 with _ | ⟨f, fs⟩
        · simp only [framesAndRest, hf, if_neg hc]
          intro hm
          rcases List.mem_cons.mp hm with rfl | hm
          · exact hc rfl
          · exact ih hm
        · simpa [framesAndRest, hf, hc] using ih

theorem framesAndRest_append (xs ys : Chunk) :
    framesAndRest (xs ++ ys) =
      ((framesAndRest xs).1 ++ seam (framesAndRest xs).2 (framesAndRest ys).1,
       match (framesAndRest ys).1 with
       | [] => (framesAndRest xs).2 ++ (framesAndRest ys).2
       | _ :: _ => (framesAndRest ys).2) := by
  induction xs with
  | nil =>
      rcases hg : (framesAndRest ys).1 with _ | ⟨g, gs⟩
      · simp only [List.nil_append, framesAndRest, seam, hg]
        rw [← hg]
      · simp only [List.nil_append, framesAndRest, seam, hg, List.nil_append]
        rw [← hg]
  | cons c cs ih =>
      by_cases hc : c = '\n'
      · subst hc
        rcases hg : (framesAndRest ys).1 with _ | ⟨g, gs⟩ <;>
          simp [framesAndRest, ih, hg, seam]
      · rcases hf : (framesAndRest cs).1 with _ | ⟨f, fs⟩
        · rcases hg : (framesAndRest ys).1 with _ | ⟨g, gs⟩
          · simp [framesAndRest, ih, hf, hg, seam, hc]
          · simp [framesAndRest, ih, hf, hg, seam, hc]
        · rcases hg : (framesAndRest ys).1 with _ | ⟨g, gs⟩
          · simp [framesAndRest, ih, hf, hg, seam, hc]
          · simp [framesAndRest, ih, hf, hg, seam, hc]

theorem emitFrames_append (p : Chunk → Except ParseErr JsVal) (ctx : Option (Nat → String))
    (fs gs : List Chunk) (n : Nat) :
    emitFrames p ctx (fs ++ gs) n =
      ((emitFrames p ctx gs (emitFrames p ctx fs n).1).1,
       (emitFrames p ctx fs n).2 ++ (emitFrames p ctx gs (emitFrames p ctx fs n).1).2) := by
  induction fs generalizing n with
  | nil => simp [emitFrames]
  | cons f fs ih => simp [emitFrames, ih]

theorem consumePieces_frames (p : Chunk → Except ParseErr JsVal) (ctx : Option (Nat → String))
    (frames : List Chunk) :
    ∀ (last : Chunk) (b : List Chunk) (n : Nat),
    consumePieces p ctx b (frames ++ [last]) n =
      ((if frames.isEmpty then b ++ [last] else [last]),
       emitFrames p ctx (seam b.flatten frames) n) := by
  induction frames with
  | nil => intro last b n; simp [consumePieces, seam, emitFrames]
  | cons f fs ih =>
      intro last b n
      cases fs with
      | nil =>
          simp [consumePieces, seam, emitFrames, List.flatten_append]
      | cons f2 fs2 =>
          have step :
              consumePieces p ctx b ((f :: f2 :: fs2) ++ [last]) n =
                (let raw := (b ++ [f]).flatten
                 let tagged := tagMessage ctx n (mkMessage p raw)
                 let r := consumePieces p ctx [] ((f2 :: fs2) ++ [last]) tagged.2
                 (r.1, r.2.1, tagged.1 :: r.2.2)) := by
            simp [consumePieces]
          rw [step]
          simp only [ih last []]
          simp [seam, emitFrames, List.flatten_append, seam_nil]

theorem messagesStep_spec (p : Chunk → Except ParseErr JsVal) (ctx : Option (Nat → String))
    (b : List Chunk) (n : Nat) (d : Chunk) (h : '\n' ∉ b.flatten) :
    messagesStep p ctx b n d =
      ((if (framesAndRest d).1.isEmpty then b ++ [(framesAndRest d).2]
        else [(framesAndRest d).2]),
       emitFrames p ctx (framesAndRest (b.flatten ++ d)).1 n) := by
  have hfar : framesAndRest (b.flatten ++ d) =
      (seam b.flatten (framesAndRest d).1,
       match (framesAndRest d).1 with
       | [] => b.flatten ++ (framesAndRest d).2
       | _ :: _ => (framesAndRest d).2) := by
    rw [framesAndRest_append, framesAndRest_no_newline h]
    simp
  rw [messagesStep, splitNl_eq_framesAndRest d, consumePieces_frames, hfar]

theorem messagesStep_rest (p : Chunk → Except ParseErr JsVal) (ctx : Option (Nat → String))
    (b : List Chunk) (n : Nat) (d : Chunk) (h : '\n' ∉ b.flatten) :
    (messagesStep p ctx b n d).1.flatten = (framesAndRest (b.flatten ++ d)).2 := by
  rw [messagesStep_spec p ctx b n d h]
  rw [framesAndRest_append, framesAndRest_no_newline h]
  rcases hf : (framesAndRest d).1 with _ | ⟨f, fs⟩ <;> simp [hf]

theorem messagesRunFrom_spec (p : Chunk → Except ParseErr JsVal) (ctx : Option (Nat → String))
    (chunks : List Chunk) :
    ∀ (b : List Chunk) (n : Nat), '\n' ∉ b.flatten →
    (messagesRunFrom p ctx b n chunks).2 =
      emitFrames p ctx (framesAndRest (b.flatten ++ chunks.flatten)).1 n := by
  induction chunks with
  | nil =>
      intro b n h
      simp [messagesRunFrom, framesAndRest_no_newline h, emitFrames]
  | cons d ds ih =>
      intro b n h
      have hstep := messagesStep_spec p ctx b n d h
      have hrest := messagesStep_rest p ctx b n d h
      have hnonl : '\n' ∉ (messagesStep p ctx b n d).1.flatten := by
        rw [hrest]; exact newline_not_mem_rest _
      have hih := ih (messagesStep p ctx b n d).1 (messagesStep p ctx b n d).2.1 hnonl
      have hsplit : framesAndRest (b.flatten ++ (d :: ds).flatten) =
          (((framesAndRest (b.flatten ++ d)).1 ++
              seam (framesAndRest (b.flatten ++ d)).2 (framesAndRest ds.flatten).1),
           match (framesAndRest ds.flatten).1 with
           | [] => (framesAndRest (b.flatten ++ d)).2 ++ (framesAndRest ds.flatten).2
           | _ :: _ => (framesAndRest ds.flatten).2) := by
        have : b.flatten ++ (d :: ds).flatten = (b.flatten ++ d) ++ ds.flatten := by
          simp [List.flatten_cons, List.append_assoc]
        rw [this, framesAndRest_append]
      have htail : framesAndRest ((messagesStep p ctx b n d).1.flatten ++ ds.flatten) =
          (seam (framesAndRest (b.flatten ++ d)).2 (framesAndRest ds.flatten).1,
           match (framesAndRest ds.flatten).1 with
           | [] => (framesAndRest (b.flatten ++ d)).2 ++ (framesAndRest ds.flatten).2
           | _ :: _ => (framesAndRest ds.flatten).2) := by
        rw [hrest, framesAndRest_append,
            framesAndRest_no_newline (newline_not_mem_rest (b.flatten ++ d))]
        simp
      show ((messagesRunFrom p ctx b n (d :: ds)).2.1, (messagesRunFrom p ctx b n (d :: ds)).2.2)
          = emitFrames p ctx (framesAndRest (b.flatten ++ (d :: ds).flatten)).1 n
      rw [hsplit]
      simp only [messagesRunFrom]
      rw [emitFrames_append]
      have hmsg : (messagesStep p ctx b n d).2.2 =
          (emitFrames p ctx (framesAndRest (b.flatten ++ d)).1 n).2 := by rw [hstep]
      have hcnt : (messagesStep p ctx b n d).2.1 =
          (emitFrames p ctx (framesAndRest (b.flatten ++ d)).1 n).1 := by rw [hstep]
      rw [hih, htail, hmsg, hcnt]

theorem framesAndRest_frame_cons {raw : Chunk} (t : Chunk) (h : '\n' ∉ raw) :
    framesAndRest (raw ++ '\n' :: t) =
      (raw :: (framesAndRest t).1, (framesAndRest t).2) := by
  rw [framesAndRest_append, framesAndRest_no_newline h]
  have hnl : framesAndRest ('\n' :: t) = ([] :: (framesAndRest t).1, (framesAndRest t).2) := by
    simp [framesAndRest]
  rw [hnl]
  simp [seam]

/-- Claim C2: splitting an input stream into chunks at arbitrary
offsets and feeding them to `messagesReader` one at a time yields
exactly the same sequence of messages as feeding the whole stream as
one chunk, for any parse function and any bound id-generator context. -/
theorem chunkSplitInvariance (p : Chunk → Except ParseErr JsVal)
    (ctx : Option (Nat → String)) (chunks : List Chunk) :
    messagesReader p ctx chunks = messagesReader p ctx [chunks.flatten] := by
  have h1 := messagesRunFrom_spec p ctx chunks [] 0 (by simp)
  have h2 := messagesRunFrom_spec p ctx [chunks.flatten] [] 0 (by simp)
  simp only [List.flatten_nil, List.nil_append, List.flatten_cons, List.append_nil] at h1 h2
  unfold messagesReader
  rw [h1, h2]

/-- Claim C1: a non-empty raw frame that fails to parse is yielded as
an Error-variant message whose `error` and `type` fields carry the
parse failure's message and kind and whose `invalidResponse` is the
exact raw frame text, and the reader's sequence continues with the
messages of the rest of the stream; the reader is a total function, so
it never raises. -/
theorem malformedFrameYieldsError (p : Chunk → Except ParseErr JsVal) (raw : Chunk)
    (e : ParseErr) (rest : List Chunk)
    (hnl : '\n' ∉ raw) (hp : p raw = Except.error e) (hne : raw ≠ []) :
    messagesReader p none ((raw ++ ['\n']) :: rest) =
      JsVal.obj [("error", JsVal.str e.message), ("type", JsVal.str e.name),
                 ("invalidResponse", JsVal.str (String.mk raw))]
        :: messagesReader p none rest := by
  have hmm : mkMessage p raw =
      JsVal.obj [("error", JsVal.str e.message), ("type", JsVal.str e.name),
                 ("invalidResponse", JsVal.str (String.mk raw))] := by
    cases raw with
    | nil => exact absurd rfl hne
    | cons c cs => simp [mkMessage, hp]
  have h1 := messagesRunFrom_spec p none ((raw ++ ['\n']) :: rest) [] 0 (by simp)
  have h2 := messagesRunFrom_spec p none rest [] 0 (by simp)
  simp only [List.flatten_nil, List.nil_append, List.flatten_cons] at h1 h2
  unfold messagesReader
  rw [h1, h2]
  have hfl : (raw ++ ['\n']) ++ rest.flatten = raw ++ '\n' :: rest.flatten := by simp
  rw [hfl, framesAndRest_frame_cons _ hnl]
  simp [emitFrames, tagMessage, hmm]

/-- Witness for C1 at a concrete malformed frame followed by a valid
frame: the parse hypotheses hold and both sides evaluate. -/
theorem malformedFrameYieldsErrorWitness :
    ('\n' ∉ "oops".toList)
    ∧ jsonParseNull "oops".toList =
        Except.error (ParseErr.mk "Unexpected token" "SyntaxError")
    ∧ messagesReader jsonParseNull none ["oops\n".toList, "null\n".toList] =
        [JsVal.obj [("error", JsVal.str "Unexpected token"), ("type", JsVal.str "SyntaxError"),
                    ("invalidResponse", JsVal.str "oops")],
         JsVal.null] := by
  refine ⟨by decide, rfl, ?_⟩
  have h := malformedFrameYieldsError jsonParseNull ("oops".toList)
      (ParseErr.mk "Unexpected token" "SyntaxError") ["null\n".toList]
      (by decide) rfl (by decide)
  have hx : ("oops\n".toList : List Char) = "oops".toList ++ ['\n'] := rfl
  rw [hx, h]
  rfl

/-- Claim C9, corrected: with an id-generator context bound, a yielded
message has its `id` field overwritten with the next generated id (and
the generator consumed) exactly when the message is truthy; parse
failures and empty-frame heartbeats always produce truthy (object)
messages and so are always tagged, but a frame whose parsed JSON value
is falsy (null, false, 0, "") is yielded unchanged, because the guard
on source line 69 tests the truthiness of the message itself. -/
theorem readerIdTagTruthyOnly (p : Chunk → Except ParseErr JsVal) (g : Nat → String)
    (n : Nat) (raw : Chunk) (hnl : '\n' ∉ raw) :
    (messagesRunFrom p (some g) [] n [raw ++ ['\n']]).2 =
      (((if jsTruthy (mkMessage p raw) then n + 1 else n) : Nat),
       [if jsTruthy (mkMessage p raw) then setField (mkMessage p raw) "id" (JsVal.str (g n))
        else mkMessage p raw])
    ∧ (raw = [] → jsTruthy (mkMessage p raw) = true)
    ∧ (∀ e, p raw = Except.error e → raw ≠ [] → jsTruthy (mkMessage p raw) = true) := by
  refine ⟨?_, ?_, ?_⟩
  · have h1 := messagesRunFrom_spec p (some g) [raw ++ ['\n']] [] n (by simp)
    simp only [List.flatten_nil, List.nil_append, List.flatten_cons, List.append_nil] at h1
    rw [h1]
    have hfar : framesAndRest (raw ++ ['\n']) = ([raw], []) := by
      have h := framesAndRest_frame_cons ([] : Chunk) hnl
      simpa [framesAndRest] using h
    rw [hfar]
    simp only [emitFrames, tagMessage]
    by_cases ht : jsTruthy (mkMessage p raw) <;> simp [ht]
  · intro h; subst h; rfl
  · intro e hp hne
    cases raw with
    | nil => exact absurd rfl hne
    | cons c cs => simp [mkMessage, hp, jsTruthy]

/-- Witness for C9 at the empty (heartbeat) frame: the heartbeat object
is truthy, so it is tagged with the generator's next id and the
invocation count advances. -/
theorem readerIdTagTruthyOnlyWitness :
    (messagesRunFrom jsonParseNull (some genFix) [] 0 ["\n".toList]).2 =
      (1, [JsVal.obj [("body", JsVal.null), ("emptyResponse", JsVal.bool true),
                      ("id", JsVal.str "c1.0")]]) := by
  have h := (readerIdTagTruthyOnly jsonParseNull genFix 0 [] (by decide)).1
  have hx : (([] : Chunk) ++ ['\n']) = "\n".toList := rfl
  rw [hx] at h
  rw [h]
  rfl

/-- Counterexample to C9 as stated: the valid frame "null" parses to
the JSON value null, which is falsy, so the yielded message is null
itself, carries no `id` field, and the generator is never invoked (the
invocation count stays 0). -/
theorem readerIdTagCex :
    messagesReader jsonParseNull (some genFix) ["null\n".toList] = [JsVal.null]
    ∧ (messagesRunFrom jsonParseNull (some genFix) [] 0 ["null\n".toList]).2.1 = 0
    ∧ fieldOf JsVal.null "id" = JsVal.undef
    ∧ JsVal.undef ≠ JsVal.str (genFix 0) := by
  refine ⟨rfl, rfl, rfl, fun h => JsVal.noConfusion h⟩

/-- Claim C10: when the reader's sequence is already exhausted, the
client's call resolves with null rather than raising. -/
theorem exhaustedReaderResolvesNull :
    callSettle none = CallOutcome.resolved JsVal.null := rfl

/-- Counterexample to C4 as stated: a message that is the Error variant
(it has string `error` and `type` fields) but whose `error` string is
empty is not raised — the call resolves with the message's (absent)
`body` field, because line 228 tests the truthiness of `value.error`. -/
theorem callErrorVariantCex :
    fieldOf (JsVal.obj [("error", JsVal.str ""), ("type", JsVal.str "Error")]) "error"
      = JsVal.str ""
    ∧ fieldOf (JsVal.obj [("error", JsVal.str ""), ("type", JsVal.str "Error")]) "type"
      = JsVal.str "Error"
    ∧ callSettle (some (JsVal.obj [("error", JsVal.str ""), ("type", JsVal.str "Error")])) =
        CallOutcome.resolved JsVal.undef := ⟨rfl, rfl, rfl⟩

/-- Claim C4, corrected: the client's call rejects with a `RemoteError`
built from the yielded message exactly when the message's `error` field
is truthy (present and non-empty); otherwise — including for an
Error-variant message whose `error` string is empty — it resolves with
the message's `body` field. -/
theorem callOutcomeByErrorTruthiness (fs : List (String × JsVal)) :
    (jsTruthy (lookupField fs "error") = true →
       callSettle (some (JsVal.obj fs)) = CallOutcome.rejected (remoteError fs))
    ∧ (jsTruthy (lookupField fs "error") = false →
       callSettle (some (JsVal.obj fs)) = CallOutcome.resolved (lookupField fs "body")) := by
  constructor <;> intro h <;> simp [callSettle, fieldOf, h]

/-- Witness for C4 at a concrete Error-variant message with a non-empty
error string: the call rejects. -/
theorem callOutcomeByErrorTruthinessWitness :
    callSettle (some (JsVal.obj [("error", JsVal.str "boom"), ("type", JsVal.str "Error")])) =
      CallOutcome.rejected (remoteError [("error", JsVal.str "boom"),
                                         ("type", JsVal.str "Error")]) :=
  (callOutcomeByErrorTruthiness _).1 rfl

/-- Counterexample to C5 as stated: for an Error-variant message with
kind "TypeError" and a stack present, the raised failure's trace is
prefixed with the fixed inherited class name "Error", not with the
message's kind, because line 40 prepends `this.name`, which the
`RemoteError` class never overrides. -/
theorem remoteErrorStackPrefixCex :
    lookupField (remoteError [("error", JsVal.str "boom"), ("type", JsVal.str "TypeError"),
                              ("stack", JsVal.str "at foo")]) "stack"
      = JsVal.str "Error: at foo"
    ∧ ("TypeError".toList.isPrefixOf "Error: at foo".toList) = false := by
  have h1 : jsTruthy (JsVal.str "at foo") = true := by decide
  refine ⟨?_, by decide⟩
  simp [remoteError, lookupField, assignFields, setAssoc, jsStringOf, h1]

/-- Claim C5, corrected: the failure raised from an Error-variant
message has its message equal to the message's `error` field, its trace
(when a stack is present) equal to the stack prefixed with the fixed
class name "Error" (not with the message's kind), and every remaining
Error-variant field — `id`, `type`, `invalidResponse`, `details` —
attached to it as an extra attribute with its original value. -/
theorem remoteErrorDecodeFields (idv ty inv det : JsVal) (err stk : String)
    (hstk : stk ≠ "") :
    lookupField (remoteError (errVariantFields idv ty inv det err stk)) "message"
      = JsVal.str err
    ∧ lookupField (remoteError (errVariantFields idv ty inv det err stk)) "stack"
      = JsVal.str ("Error" ++ ": " ++ stk)
    ∧ lookupField (remoteError (errVariantFields idv ty inv det err stk)) "name"
      = JsVal.str "Error"
    ∧ lookupField (remoteError (errVariantFields idv ty inv det err stk)) "id" = idv
    ∧ lookupField (remoteError (errVariantFields idv ty inv det err stk)) "type" = ty
    ∧ lookupField (remoteError (errVariantFields idv ty inv det err stk)) "invalidResponse"
      = inv
    ∧ lookupField (remoteError (errVariantFields idv ty inv det err stk)) "details" = det := by
  have htr : jsTruthy (JsVal.str stk) = true := by
    have hne : stk.isEmpty = false :=
      Bool.eq_false_iff.mpr (fun h => hstk ((String.isEmpty_iff stk).mp h))
    simp [jsTruthy, hne]
  simp [remoteError, errVariantFields, lookupField, assignFields, setAssoc, htr, jsStringOf]

/-- Witness for C5 at a concrete Error-variant message with all fields
present and a non-empty stack. -/
theorem remoteErrorDecodeFieldsWitness :
    lookupField (remoteError (errVariantFields (JsVal.str "r1") (JsVal.str "TypeError")
        JsVal.undef (JsVal.obj [("name", JsVal.str "socket")]) "boom" "at foo")) "message"
      = JsVal.str "boom"
    ∧ lookupField (remoteError (errVariantFields (JsVal.str "r1") (JsVal.str "TypeError")
        JsVal.undef (JsVal.obj [("name", JsVal.str "socket")]) "boom" "at foo")) "stack"
      = JsVal.str "Error: at foo"
    ∧ lookupField (remoteError (errVariantFields (JsVal.str "r1") (JsVal.str "TypeError")
        JsVal.undef (JsVal.obj [("name", JsVal.str "socket")]) "boom" "at foo")) "name"
      = JsVal.str "Error"
    ∧ lookupField (remoteError (errVariantFields (JsVal.str "r1") (JsVal.str "TypeError")
        JsVal.undef (JsVal.obj [("name", JsVal.str "socket")]) "boom" "at foo")) "id"
      = JsVal.str "r1"
    ∧ lookupField (remoteError (errVariantFields (JsVal.str "r1") (JsVal.str "TypeError")
        JsVal.undef (JsVal.obj [("name", JsVal.str "socket")]) "boom" "at foo")) "type"
      = JsVal.str "TypeError"
    ∧ lookupField (remoteError (errVariantFields (JsVal.str "r1") (JsVal.str "TypeError")
        JsVal.undef (JsVal.obj [("name", JsVal.str "socket")]) "boom" "at foo"))
        "invalidResponse" = JsVal.undef
    ∧ lookupField (remoteError (errVariantFields (JsVal.str "r1") (JsVal.str "TypeError")
        JsVal.undef (JsVal.obj [("name", JsVal.str "socket")]) "boom" "at foo")) "details"
      = JsVal.obj [("name", JsVal.str "socket")] :=
  remoteErrorDecodeFields (JsVal.str "r1") (JsVal.str "TypeError") JsVal.undef
    (JsVal.obj [("name", JsVal.str "socket")]) "boom" "at foo" (by decide)

/-- Claim C3: `asMessageError` classifies a thrown value exactly per
the spec table — an `Error` instance maps to its message and kind name
(with its stack only when the trace flag is set), an `ErrorResponse`
instance additionally carries its `details` payload (and never a
stack), a plain string maps to itself with type "string", a truthy
value exposing `toString` maps to its rendered text with type "object"
and itself as details, anything else maps to "unknown error" / type
"unknown" with itself as details; and no stack is ever included when
the trace flag is off. -/
theorem asMessageErrorClassification :
    (∀ nm msg stk, asMessageError (Thrown.errObj nm msg stk) false =
        MessageErrorM.mk msg nm none none none)
    ∧ (∀ nm msg stk, asMessageError (Thrown.errObj nm msg stk) true =
        MessageErrorM.mk msg nm none (some stk) none)
    ∧ (∀ nm msg stk det b, asMessageError (Thrown.errResponse nm msg stk det) b =
        MessageErrorM.mk msg nm none none (some det))
    ∧ (∀ s b, asMessageError (Thrown.str s) b =
        MessageErrorM.mk s "string" none none none)
    ∧ (∀ text v b, asMessageError (Thrown.objWithTs text v) b =
        MessageErrorM.mk text "object" none none (some v))
    ∧ (∀ v b, asMessageError (Thrown.other v) b =
        MessageErrorM.mk "unknown error" "unknown" none none (some v))
    ∧ (∀ e, (asMessageError e false).stack = none) := by
  refine ⟨fun nm msg stk => rfl, fun nm msg stk => rfl, fun nm msg stk det b => rfl,
          fun s b => rfl, fun text v b => rfl, fun v b => rfl, fun e => ?_⟩
  cases e <;> rfl

theorem counterRun_from (radix s : Nat) (pfxs : List String) :
    counterRun (CounterIdGen.mk radix s) pfxs =
      pfxs.mapIdx (fun k pfx =>
        (if pfx.isEmpty then "" else pfx ++ ".") ++ String.mk (Nat.toDigits radix (s + k))) := by
  induction pfxs generalizing s with
  | nil => simp [counterRun]
  | cons pfx ps ih =>
      have harith : ∀ i : Nat, s + 1 + i = s + (i + 1) := by omega
      simp [counterRun, counterCall, ih (s + 1), List.mapIdx_cons, harith]

/-- Claim C6: starting from a fresh `counter(radix)` instance, the k-th
invocation (counting from 0) returns the prefix followed by the join
"." when a non-empty prefix is given (just the rendered number
otherwise) followed by the counter value k rendered in the radix: the
successive counter values are 0, 1, 2, …, strictly increasing with no
repeats, and depend only on this instance's own invocation count. -/
theorem counterIdsSequential (radix : Nat) (pfxs : List String) :
    counterRun (counter radix) pfxs =
      pfxs.mapIdx (fun k pfx =>
        (if pfx.isEmpty then "" else pfx ++ ".") ++ String.mk (Nat.toDigits radix k)) := by
  have h := counterRun_from radix 0 pfxs
  simpa [counter] using h

/-- Counterexample to C7 as stated: `startService` with plain default
options registers a process-level SIGINT handler (source line 139), so
the process's signal-handler registrations do not stay unchanged. -/
theorem startServiceSigintCex :
    StartEffect.registerProcessSignalHandler "SIGINT" ∈
      startServiceTrace (ServiceOpts.mk "link.sock" none false false) "myhost" 0 false := by
  decide

/-- Claim C7, corrected: every invocation of `startService` — whatever
the options, handler presence, host or start time — registers a
process-level SIGINT handler (bound to `service.stop`), in addition to
exposing `stop` for external collaborators to invoke. -/
theorem startServiceRegistersSigint (opts : ServiceOpts) (hostname : String) (now : Nat)
    (hasHandler : Bool) :
    StartEffect.registerProcessSignalHandler "SIGINT" ∈
      startServiceTrace opts hostname now hasHandler := by
  simp [startServiceTrace]

/-- Claim C8 (code bug): with a supplied `serviceId`, line 130 skips
the derived-id assignment but nothing ever assigns the supplied value,
so `service.id` stays undefined instead of equalling the option; with
no `serviceId` supplied the id is derived from the hostname and the
hex-rendered start time as the claim says. -/
theorem startServiceSuppliedIdIgnored :
    serviceIdAfterStart (ServiceOpts.mk "link.sock" (some "svc0") false false) "myhost" 26
      = none
    ∧ serviceIdAfterStart (ServiceOpts.mk "link.sock" none false false) "myhost" 26
      = some "myhost.1a" := ⟨rfl, rfl⟩

end SocketLink
